import Mathlib

/-!
Verification development for a multiplayer TicTacToe server.

The definitions below are a shallow embedding of the Python sources:
`common/board.py`, `common/player.py`, `common/game.py`,
`server/game_manager.py`, `server/server.py`, `server/client_handler.py`
and `common/protocol.py`.

Modelling conventions:
* Python `int` is `Int` where the code compares against negative bounds,
  `Nat` for list indices and counters that are only ever non-negative.
* Mutation is modelled by returning the updated value; a Python method that
  returns a bool and mutates in place becomes a function returning
  `Option` (some updated-value on success, none on failure) or a pair.
* Raised exceptions (`ValueError` in `Board.__init__`) become `Except`.
* Python dicts become association lists with lookup / insert / erase
  helpers; the server's uuid generation is modelled by passing the fresh
  identifier explicitly.
-/

/-- Lookup in an association list, modelling Python `d.get(k)`. -/
def lookupA {α : Type} (l : List (String × α)) (k : String) : Option α :=
  (l.find? (fun kv => kv.1 = k)).map (fun kv => kv.2)

/-- Insert or replace in an association list, modelling Python `d[k] = v`. -/
def insertA {α : Type} (l : List (String × α)) (k : String) (v : α) : List (String × α) :=
  if (l.find? (fun kv => kv.1 = k)).isSome then
    l.map (fun kv => if kv.1 = k then (k, v) else kv)
  else
    l ++ [(k, v)]

/-- Remove a key from an association list, modelling Python `del d[k]`
(guarded by `k in d`, so removal of an absent key is a no-op). -/
def eraseA {α : Type} (l : List (String × α)) (k : String) : List (String × α) :=
  l.filter (fun kv => kv.1 ≠ k)

/-- The game board, from `Board.__init__` in `common/board.py`:
`num_players`, `size = num_players + 1`, `win_length = num_players + 1`,
a `size × size` grid of optional symbols, and a move counter. -/
structure Board where
  num_players : Int
  size : Nat
  win_length : Nat
  grid : List (List (Option String))
  move_count : Nat
deriving Repr, DecidableEq

/-- `Board.__init__`: raises `ValueError` unless `2 ≤ num_players ≤ 10`,
otherwise builds an empty `(num_players+1) × (num_players+1)` grid. -/
def Board.init (num_players : Int) : Except String Board :=
  if num_players < 2 ∨ 10 < num_players then
    Except.error "Number of players must be between 2 and 10"
  else
    let size := (num_players + 1).toNat
    Except.ok
      { num_players := num_players
        size := size
        win_length := size
        grid := List.replicate size (List.replicate size none)
        move_count := 0 }

/-- Read a grid cell, returning `none` when out of range.  Inside
`check_winner` every access is guarded by `0 <= r < size and 0 <= c < size`,
which this helper folds into the read. -/
def Board.cellAt (b : Board) (row col : Int) : Option String :=
  if 0 ≤ row ∧ row < (b.size : Int) ∧ 0 ≤ col ∧ col < (b.size : Int) then
    (b.grid.getD row.toNat []).getD col.toNat none
  else none

/-- `Board.is_valid_move`: in bounds and the target cell is empty. -/
def Board.is_valid_move (b : Board) (row col : Int) : Bool :=
  if row < 0 ∨ (b.size : Int) ≤ row ∨ col < 0 ∨ (b.size : Int) ≤ col then false
  else ((b.grid.getD row.toNat []).getD col.toNat none).isNone

/-- `Board.make_move`: on a valid target writes the symbol and increments
`move_count`; otherwise fails without mutation. -/
def Board.make_move (b : Board) (row col : Int) (symbol : String) : Option Board :=
  if b.is_valid_move row col then
    some { b with
      grid := b.grid.set row.toNat ((b.grid.getD row.toNat []).set col.toNat (some symbol))
      move_count := b.move_count + 1 }
  else none

/-- One directed arm of the `check_winner` scan: the number of consecutive
cells equal to `symbol` starting at `(r, c)` and stepping by `(dr, dc)`,
staying in bounds.  The Python `while` loop moves one cell per iteration
inside a `size`-wide window, so `size` steps of fuel never truncate it. -/
def Board.countDir (b : Board) (symbol : String) (dr dc : Int) : Int → Int → Nat → Nat
  | _, _, 0 => 0
  | r, c, fuel + 1 =>
    if b.cellAt r c = some symbol then b.countDir symbol dr dc (r + dr) (c + dc) fuel + 1
    else 0

/-- The four scan directions of `check_winner`: horizontal, vertical,
diagonal, anti-diagonal. -/
def Board.directions : List (Int × Int) := [(0, 1), (1, 0), (1, 1), (1, -1)]

/-- Total length of the contiguous run of `symbol` through `(row, col)`
along direction `d`: the anchor cell plus both directed arms, exactly the
`count` computed per direction by `check_winner`. -/
def Board.runLength (b : Board) (symbol : String) (row col : Int) (d : Int × Int) : Nat :=
  1 + b.countDir symbol d.1 d.2 (row + d.1) (col + d.2) b.size
    + b.countDir symbol (-d.1) (-d.2) (row - d.1) (col - d.2) b.size

/-- `Board.check_winner`: anchored at the just-played cell, returns its
symbol when some direction carries a run of at least `win_length`,
otherwise `none`; `none` for an empty anchor. -/
def Board.check_winner (b : Board) (row col : Int) : Option String :=
  match b.cellAt row col with
  | none => none
  | some symbol =>
    if Board.directions.any (fun d => decide (b.win_length ≤ b.runLength symbol row col d)) then
      some symbol
    else none

/-- `Board.is_full`: `move_count >= size * size`. -/
def Board.is_full (b : Board) : Bool :=
  decide (b.size * b.size ≤ b.move_count)

/-- A player, from `common/player.py`.  Python equality on players compares
`player_id` only; the embedding spells that comparison out at use sites. -/
structure Player where
  player_id : String
  name : String
  symbol : String
  is_active : Bool
deriving Repr, DecidableEq

/-- The fixed symbol alphabet `Player.SYMBOLS`. -/
def Player.SYMBOLS : List String :=
  ["X", "O", "Δ", "□", "◇", "★", "♠", "♣", "♥", "♦"]

/-- Placeholder player used as the default of `List.getD` in statements. -/
def dfltPlayer : Player := { player_id := "", name := "", symbol := "", is_active := false }

/-- Game lifecycle states, from `common/game.py`. -/
inductive GameState where
  | WAITING
  | PLAYING
  | FINISHED
deriving Repr, DecidableEq

/-- A game room, from `common/game.py`. -/
structure Game where
  game_id : String
  num_players : Int
  players : List Player
  board : Board
  current_player_index : Nat
  state : GameState
  winner : Option Player
  is_draw : Bool
deriving Repr, DecidableEq

/-- `Game.__init__`: fresh board (which may raise), empty roster, state
`WAITING`.  The uuid fallback for a missing id is modelled by the caller
passing the generated id. -/
def Game.init (game_id : String) (num_players : Int) : Except String Game :=
  match Board.init num_players with
  | Except.error e => Except.error e
  | Except.ok b =>
    Except.ok
      { game_id := game_id
        num_players := num_players
        players := []
        board := b
        current_player_index := 0
        state := GameState.WAITING
        winner := none
        is_draw := false }

/-- `Game.add_player`: rejects when the roster is at capacity or the player
(by id) is already on it; otherwise appends and flips to `PLAYING` exactly
when the roster reaches `num_players`. -/
def Game.add_player (g : Game) (p : Player) : Option Game :=
  if g.num_players ≤ (g.players.length : Int) then none
  else if g.players.any (fun q => decide (q.player_id = p.player_id)) then none
  else
    let players2 := g.players ++ [p]
    some { g with
      players := players2
      state := if (players2.length : Int) = g.num_players then GameState.PLAYING else g.state }

/-- `Game.remove_player`: marks the player (by id) inactive — the roster
entry is kept — and finishes the game when it was in progress. -/
def Game.remove_player (g : Game) (p : Player) : Option Game :=
  if g.players.any (fun q => decide (q.player_id = p.player_id)) then
    some { g with
      players := g.players.map (fun q =>
        if q.player_id = p.player_id then { q with is_active := false } else q)
      state := if g.state = GameState.PLAYING then GameState.FINISHED else g.state }
  else none

/-- The skip loop inside `Game.get_current_player`: starting at `idx`, try
at most `attempts` roster slots, advancing circularly past inactive
players; returns the player found (if any) together with the final value
of `current_player_index`. -/
def Game.currentPlayerAux (players : List Player) : Nat → Nat → Option Player × Nat
  | idx, 0 => (none, idx)
  | idx, attempts + 1 =>
    match players.get? idx with
    | none => (none, idx)
    | some p =>
      if p.is_active then (some p, idx)
      else Game.currentPlayerAux players ((idx + 1) % players.length) attempts

/-- `Game.get_current_player`: `none` outside `PLAYING`; otherwise the skip
loop above, whose index advance is a mutation of `current_player_index`. -/
def Game.get_current_player (g : Game) : Option Player × Game :=
  if g.state ≠ GameState.PLAYING then (none, g)
  else
    ((Game.currentPlayerAux g.players g.current_player_index g.players.length).1,
      { g with current_player_index :=
        (Game.currentPlayerAux g.players g.current_player_index g.players.length).2 })

/-- `Game.get_active_player_count`. -/
def Game.get_active_player_count (g : Game) : Nat :=
  (g.players.filter (fun p => p.is_active)).length

/-- `Game.make_move`: validates state, turn (player identity by id) and the
board move; on success applies the move, then checks winner, then draw,
otherwise advances the turn pointer circularly. -/
def Game.make_move (g : Game) (player : Player) (row col : Int) :
    (Bool × Option String) × Game :=
  if g.state ≠ GameState.PLAYING then ((false, some "Game is not in progress"), g)
  else
    match g.get_current_player with
    | (none, g1) => ((false, some "Not your turn"), g1)
    | (some cp, g1) =>
      if cp.player_id ≠ player.player_id then ((false, some "Not your turn"), g1)
      else
        match g1.board.make_move row col player.symbol with
        | none => ((false, some "Invalid move"), g1)
        | some board2 =>
          match board2.check_winner row col with
          | some _ =>
            ((true, none),
              { g1 with board := board2, winner := some player, state := GameState.FINISHED })
          | none =>
            if board2.is_full then
              ((true, none),
                { g1 with board := board2, is_draw := true, state := GameState.FINISHED })
            else
              ((true, none),
                { g1 with
                  board := board2
                  current_player_index := (g1.current_player_index + 1) % g1.players.length })

/-- The server-side registry, from `server/game_manager.py`. -/
structure GameManager where
  games : List (String × Game)
  player_to_game : List (String × String)
deriving Repr, DecidableEq

/-- The empty registry built by `GameManager.__init__`. -/
def GameManager.empty : GameManager := { games := [], player_to_game := [] }

/-- `GameManager.get_game`. -/
def GameManager.get_game (gm : GameManager) (game_id : String) : Option Game :=
  lookupA gm.games game_id

/-- `GameManager.create_game`: builds a `Game` (whose constructor may
raise) and registers it under its id; the registry never consults
`player_to_game` here.  The fresh uuid is passed explicitly. -/
def GameManager.create_game (gm : GameManager) (game_id : String) (num_players : Int) :
    Except String (Game × GameManager) :=
  match Game.init game_id num_players with
  | Except.error e => Except.error e
  | Except.ok g => Except.ok (g, { gm with games := insertA gm.games g.game_id g })

/-- `GameManager.join_game`: rejects an unknown or already-started game;
releases a stale mapping to a finished or missing game (a mutation that
happens even if the subsequent `add_player` fails); then delegates to
`Game.add_player` and on success stores the updated game and the
`player_id → game_id` mapping. -/
def GameManager.join_game (gm : GameManager) (game_id : String) (player : Player) :
    (Bool × Option String) × GameManager :=
  match gm.get_game game_id with
  | none => ((false, some "Game not found"), gm)
  | some game =>
    if game.state ≠ GameState.WAITING then ((false, some "Game already started"), gm)
    else
      match
        (match lookupA gm.player_to_game player.player_id with
         | none => some gm
         | some old_game_id =>
           match gm.get_game old_game_id with
           | none =>
             some { gm with player_to_game := eraseA gm.player_to_game player.player_id }
           | some old_game =>
             if old_game.state = GameState.FINISHED then
               some { gm with player_to_game := eraseA gm.player_to_game player.player_id }
             else none) with
      | none => ((false, some "Player already in a game"), gm)
      | some gm2 =>
        match game.add_player player with
        | none => ((false, some "Game is full"), gm2)
        | some game2 =>
          ((true, none),
            { games := insertA gm2.games game_id game2
              player_to_game := insertA gm2.player_to_game player.player_id game_id })

/-- `GameManager._cleanup_game`: drops the game and every roster member's
mapping. -/
def GameManager.cleanup_game (gm : GameManager) (game_id : String) : GameManager :=
  match gm.get_game game_id with
  | none => gm
  | some game =>
    { games := eraseA gm.games game_id
      player_to_game :=
        game.players.foldl (fun m p => eraseA m p.player_id) gm.player_to_game }

/-- `GameManager.leave_game`: resolves the player's game, marks the player
inactive via `Game.remove_player`, drops only the leaver's mapping, and
fully cleans the game up when no active players remain. -/
def GameManager.leave_game (gm : GameManager) (player_id : String) :
    Option Game × GameManager :=
  match lookupA gm.player_to_game player_id with
  | none => (none, gm)
  | some game_id =>
    match gm.get_game game_id with
    | none => (none, gm)
    | some game =>
      match game.players.find? (fun p => p.player_id = player_id) with
      | none => (some game, gm)
      | some player =>
        let game2 := (game.remove_player player).getD game
        let gm2 : GameManager :=
          { games := insertA gm.games game_id game2
            player_to_game := eraseA gm.player_to_game player_id }
        if game2.get_active_player_count = 0 then (some game2, gm2.cleanup_game game_id)
        else (some game2, gm2)

/-- `GameManager.get_player_game`. -/
def GameManager.get_player_game (gm : GameManager) (player_id : String) : Option Game :=
  match lookupA gm.player_to_game player_id with
  | none => none
  | some game_id => gm.get_game game_id

/-- `GameManager.make_move`: resolves the player's game and `Player`
object, delegates to `Game.make_move`, stores the updated game, and — when
the game is (now) `FINISHED` — erases every roster member's mapping. -/
def GameManager.make_move (gm : GameManager) (player_id : String) (row col : Int) :
    (Bool × Option String) × Option Game × GameManager :=
  match gm.get_player_game player_id with
  | none => ((false, some "Not in a game"), none, gm)
  | some game =>
    match game.players.find? (fun p => p.player_id = player_id) with
    | none => ((false, some "Player not found in game"), none, gm)
    | some player =>
      let game2 := (game.make_move player row col).2
      let gm2 : GameManager := { gm with games := insertA gm.games game.game_id game2 }
      let gm3 : GameManager :=
        if game2.state = GameState.FINISHED then
          { gm2 with player_to_game :=
              game2.players.foldl (fun m p => eraseA m p.player_id) gm2.player_to_game }
        else gm2
      ((game.make_move player row col).1, some game2, gm3)

/-- `Server._handle_join_game` from `server/server.py`, restricted to its
registry effects (the `GAME_JOINED` reply and broadcasts carry no game
state mutation): picks the symbol `SYMBOLS[len(game.players)]`, builds the
`Player`, and delegates to `join_game`. -/
def Server.handle_join_game (gm : GameManager) (player_id player_name game_id : String) :
    (Bool × Option String) × GameManager :=
  match gm.get_game game_id with
  | none => ((false, some "Game not found"), gm)
  | some game =>
    let symbol := Player.SYMBOLS.getD game.players.length ""
    let player : Player :=
      { player_id := player_id, name := player_name, symbol := symbol, is_active := true }
    gm.join_game game_id player

/-- `Server._handle_quit_game` from `server/server.py`, restricted to its
registry effects: runs `leave_game`; when that finished the game it
additionally erases every roster member's mapping if exactly one active
player remains with no winner (abandonment) or if a winner exists. -/
def Server.handle_quit_game (gm : GameManager) (player_id : String) : GameManager :=
  match gm.leave_game player_id with
  | (none, gm2) => gm2
  | (some game, gm2) =>
    if game.state = GameState.FINISHED then
      if game.get_active_player_count = 0 then gm2
      else if game.get_active_player_count = 1 ∧ game.winner = none then
        { gm2 with player_to_game :=
            game.players.foldl (fun m p => eraseA m p.player_id) gm2.player_to_game }
      else if (game.winner).isSome then
        { gm2 with player_to_game :=
            game.players.foldl (fun m p => eraseA m p.player_id) gm2.player_to_game }
      else gm2
    else gm2

theorem find?_insertA {α : Type} (l : List (String × α)) (k : String) (v : α) :
    List.find? (fun kv => kv.1 = k) (insertA l k v) = some (k, v) := by
  induction l with
  | nil => simp [insertA]
  | cons kv t ih =>
    by_cases hk : kv.1 = k
    · have hc : (List.find? (fun kv => (kv.1 = k : Bool)) (kv :: t)).isSome = true := by
        rw [List.find?_cons_of_pos _ (by simpa using hk)]
        rfl
      unfold insertA
      rw [if_pos hc]
      simp only [List.map_cons, if_pos hk]
      rw [List.find?_cons_of_pos _ (by simp)]
    · have hskip : List.find? (fun kv => (kv.1 = k : Bool)) (kv :: t) =
          List.find? (fun kv => (kv.1 = k : Bool)) t :=
        List.find?_cons_of_neg _ (by simpa using hk)
      by_cases hf : (List.find? (fun kv => (kv.1 = k : Bool)) t).isSome = true
      · unfold insertA
        rw [if_pos (by rw [hskip]; exact hf)]
        simp only [List.map_cons, if_neg hk]
        rw [List.find?_cons_of_neg _ (by simpa using hk)]
        unfold insertA at ih
        rw [if_pos hf] at ih
        exact ih
      · unfold insertA
        rw [if_neg (by rw [hskip]; exact hf)]
        rw [List.cons_append, List.find?_cons_of_neg _ (by simpa using hk)]
        unfold insertA at ih
        rw [if_neg hf] at ih
        exact ih

theorem lookupA_insertA_self {α : Type} (l : List (String × α)) (k : String) (v : α) :
    lookupA (insertA l k v) k = some v := by
  unfold lookupA
  rw [find?_insertA]
  rfl

theorem lookupA_eraseA {α : Type} (l : List (String × α)) (k2 k : String) :
    lookupA (eraseA l k2) k = if k = k2 then none else lookupA l k := by
  unfold eraseA
  induction l with
  | nil => simp [lookupA]
  | cons kv t ih =>
    simp only [List.filter_cons]
    by_cases hk2 : kv.1 = k2
    · rw [if_neg (by simp [hk2])]
      rw [ih]
      by_cases hk : k = k2
      · simp [hk]
      · rw [if_neg hk, if_neg hk]
        have hne : ¬(kv.1 = k) := fun hh => hk (by rw [← hh, hk2])
        unfold lookupA
        rw [List.find?_cons_of_neg _ (by simpa using hne)]
    · rw [if_pos (by simp [hk2])]
      by_cases hk : kv.1 = k
      · have hkk2 : ¬(k = k2) := fun h => hk2 (by rw [hk, h])
        rw [if_neg hkk2]
        unfold lookupA
        rw [List.find?_cons_of_pos _ (by simpa using hk),
          List.find?_cons_of_pos _ (by simpa using hk)]
      · unfold lookupA at ih ⊢
        rw [List.find?_cons_of_neg _ (by simpa using hk),
          List.find?_cons_of_neg _ (by simpa using hk)]
        exact ih

theorem lookupA_eraseA_self {α : Type} (l : List (String × α)) (k : String) :
    lookupA (eraseA l k) k = none := by
  rw [lookupA_eraseA]
  simp

theorem lookupA_eraseA_of_none {α : Type} (l : List (String × α)) (k2 k : String)
    (h : lookupA l k = none) : lookupA (eraseA l k2) k = none := by
  rw [lookupA_eraseA]
  by_cases hk : k = k2
  · simp [hk]
  · rw [if_neg hk]
    exact h

theorem foldl_erase_preserves_none (ps : List Player) :
    ∀ (m : List (String × String)) (k : String), lookupA m k = none →
      lookupA (ps.foldl (fun m p => eraseA m p.player_id) m) k = none := by
  induction ps with
  | nil =>
    intro m k h
    exact h
  | cons p ps ih =>
    intro m k h
    simp only [List.foldl_cons]
    exact ih _ _ (lookupA_eraseA_of_none m p.player_id k h)

theorem foldl_erase_lookup_mem (ps : List Player) (q : Player) :
    ∀ (m : List (String × String)), q ∈ ps →
      lookupA (ps.foldl (fun m p => eraseA m p.player_id) m) q.player_id = none := by
  induction ps with
  | nil =>
    intro m hq
    simp at hq
  | cons p ps ih =>
    intro m hq
    simp only [List.foldl_cons]
    rcases List.mem_cons.mp hq with rfl | hmem
    · exact foldl_erase_preserves_none ps _ _ (lookupA_eraseA_self m q.player_id)
    · exact ih _ hmem

/-- C9 (dimensions of a fresh game). -/
theorem new_game_dimensions (gid : String) (n : Int) (h2 : 2 ≤ n) (h10 : n ≤ 10) :
    (Game.init gid n).toOption.map
        (fun g => ((g.board.size : Int), (g.board.win_length : Int))) =
      some (n + 1, n + 1) := by
  have hn : ¬(n < 2 ∨ 10 < n) := by omega
  have hs : ((n + 1).toNat : Int) = n + 1 := Int.toNat_of_nonneg (by omega)
  simp [Game.init, Board.init, hn, hs, Except.toOption]

theorem new_game_dimensions_witness :
    (Game.init "room" 2).toOption.map
        (fun g => ((g.board.size : Int), (g.board.win_length : Int))) =
      some (3, 3) :=
  new_game_dimensions "room" 2 (by decide) (by decide)

/-- C10 (range check lives in the Board constructor and propagates through
`create_game`). -/
theorem board_init_range_check (n : Int) (gm : GameManager) (gid : String) :
    ((n < 2 ∨ 10 < n) →
      Board.init n = Except.error "Number of players must be between 2 and 10" ∧
      gm.create_game gid n = Except.error "Number of players must be between 2 and 10") ∧
    (2 ≤ n → n ≤ 10 →
      (Board.init n).isOk = true ∧ (gm.create_game gid n).isOk = true) := by
  constructor
  · intro h
    constructor
    · simp [Board.init, h]
    · simp [GameManager.create_game, Game.init, Board.init, h]
  · intro h2 h10
    have hn : ¬(n < 2 ∨ 10 < n) := by omega
    constructor
    · simp [Board.init, hn, Except.isOk, Except.toBool]
    · simp [GameManager.create_game, Game.init, Board.init, hn, Except.isOk, Except.toBool]

theorem getD_of_get? (players : List Player) (i : Nat) (p : Player)
    (h : players.get? i = some p) : players.getD i dfltPlayer = p := by
  have h' : players[i]? = some p := by
    rw [← List.get?_eq_getElem?]
    exact h
  simp [List.getD, h']

theorem currentPlayerAux_all_inactive (players : List Player) :
    ∀ (n i : Nat), i < players.length →
      (∀ j, j < n → (players.getD ((i + j) % players.length) dfltPlayer).is_active = false) →
      Game.currentPlayerAux players i n = (none, (i + n) % players.length) := by
  intro n
  induction n with
  | zero =>
    intro i hi _
    simp [Game.currentPlayerAux, Nat.mod_eq_of_lt hi]
  | succ n ih =>
    intro i hi h
    have hL : 0 < players.length := Nat.lt_of_le_of_lt (Nat.zero_le i) hi
    have hp := List.get?_eq_get hi
    have h0 := h 0 (Nat.succ_pos n)
    rw [Nat.add_zero, Nat.mod_eq_of_lt hi] at h0
    rw [getD_of_get? _ _ _ hp] at h0
    unfold Game.currentPlayerAux
    rw [hp]
    dsimp only
    rw [if_neg (by simpa using h0)]
    have hi1 : (i + 1) % players.length < players.length := Nat.mod_lt _ hL
    have h' : ∀ j, j < n →
        (players.getD (((i + 1) % players.length + j) % players.length) dfltPlayer).is_active
          = false := by
      intro j hj
      have hidxeq : ((i + 1) % players.length + j) % players.length =
          (i + (j + 1)) % players.length := by
        rw [Nat.mod_add_mod]
        congr 1
        omega
      rw [hidxeq]
      exact h (j + 1) (Nat.succ_lt_succ hj)
    rw [ih _ hi1 h']
    congr 1
    rw [Nat.mod_add_mod]
    congr 1
    omega

theorem currentPlayerAux_found (players : List Player) :
    ∀ (k n i : Nat), i < players.length → k < n →
      (∀ j, j < k → (players.getD ((i + j) % players.length) dfltPlayer).is_active = false) →
      (players.getD ((i + k) % players.length) dfltPlayer).is_active = true →
      Game.currentPlayerAux players i n =
        (some (players.getD ((i + k) % players.length) dfltPlayer),
          (i + k) % players.length) := by
  intro k
  induction k with
  | zero =>
    intro n i hi hk _ hact
    obtain ⟨m, rfl⟩ : ∃ m, n = m + 1 := ⟨n - 1, by omega⟩
    simp only [Nat.add_zero, Nat.mod_eq_of_lt hi] at hact ⊢
    have hp := List.get?_eq_get hi
    unfold Game.currentPlayerAux
    rw [hp]
    dsimp only
    rw [getD_of_get? _ _ _ hp] at hact ⊢
    rw [if_pos hact]
  | succ k ih =>
    intro n i hi hk h hact
    obtain ⟨m, rfl⟩ : ∃ m, n = m + 1 := ⟨n - 1, by omega⟩
    have hL : 0 < players.length := Nat.lt_of_le_of_lt (Nat.zero_le i) hi
    have hp := List.get?_eq_get hi
    have h0 := h 0 (Nat.succ_pos k)
    rw [Nat.add_zero, Nat.mod_eq_of_lt hi] at h0
    rw [getD_of_get? _ _ _ hp] at h0
    unfold Game.currentPlayerAux
    rw [hp]
    dsimp only
    rw [if_neg (by simpa using h0)]
    have hi1 : (i + 1) % players.length < players.length := Nat.mod_lt _ hL
    have hshift : ∀ j, ((i + 1) % players.length + j) % players.length =
        (i + (j + 1)) % players.length := by
      intro j
      rw [Nat.mod_add_mod]
      congr 1
      omega
    have h' : ∀ j, j < k →
        (players.getD (((i + 1) % players.length + j) % players.length) dfltPlayer).is_active
          = false := by
      intro j hj
      rw [hshift j]
      exact h (j + 1) (Nat.succ_lt_succ hj)
    have hact' : (players.getD
        (((i + 1) % players.length + k) % players.length) dfltPlayer).is_active = true := by
      rw [hshift k]
      exact hact
    rw [ih m ((i + 1) % players.length) hi1 (by omega) h' hact']
    rw [hshift k]

theorem currentPlayerAux_some (players : List Player) :
    ∀ (n i : Nat) (p : Player) (j : Nat),
      Game.currentPlayerAux players i n = (some p, j) →
      players.get? j = some p ∧ p.is_active = true := by
  intro n
  induction n with
  | zero =>
    intro i p j h
    simp [Game.currentPlayerAux] at h
  | succ n ih =>
    intro i p j h
    unfold Game.currentPlayerAux at h
    cases hget : players.get? i with
    | none => rw [hget] at h; simp at h
    | some q =>
      rw [hget] at h
      dsimp only at h
      by_cases hq : q.is_active = true
      · rw [if_pos hq] at h
        have h1 : some q = some p := congrArg Prod.fst h
        have h2 : i = j := congrArg Prod.snd h
        obtain rfl := Option.some.inj h1
        obtain rfl := h2
        exact ⟨hget, hq⟩
      · rw [if_neg hq] at h
        exact ih _ _ _ h

theorem currentPlayerAux_none_props (players : List Player) (hL : 0 < players.length) :
    ∀ (n i : Nat), i < players.length →
      (Game.currentPlayerAux players i n).1 = none →
      (Game.currentPlayerAux players i n).2 = (i + n) % players.length ∧
      (∀ j, j < n → (players.getD ((i + j) % players.length) dfltPlayer).is_active = false) := by
  intro n
  induction n with
  | zero =>
    intro i hi _
    constructor
    · simp [Game.currentPlayerAux, Nat.mod_eq_of_lt hi]
    · intro j hj
      omega
  | succ n ih =>
    intro i hi hnone
    have hp := List.get?_eq_get hi
    unfold Game.currentPlayerAux at hnone ⊢
    rw [hp] at hnone ⊢
    dsimp only at hnone ⊢
    by_cases hq : (players.get ⟨i, hi⟩).is_active = true
    · rw [if_pos hq] at hnone
      simp at hnone
    · rw [if_neg hq] at hnone ⊢
      have hi1 : (i + 1) % players.length < players.length := Nat.mod_lt _ hL
      have hrec := ih ((i + 1) % players.length) hi1 hnone
      have hshift : ∀ j, ((i + 1) % players.length + j) % players.length =
          (i + (j + 1)) % players.length := by
        intro j
        rw [Nat.mod_add_mod]
        congr 1
        omega
      constructor
      · rw [hrec.1, hshift n]
      · intro j hj
        cases j with
        | zero =>
          rw [Nat.add_zero, Nat.mod_eq_of_lt hi, getD_of_get? _ _ _ hp]
          simpa using hq
        | succ j =>
          rw [← hshift j]
          exact hrec.2 j (by omega)

theorem gcp_fields (g : Game) :
    ((g.get_current_player).2).game_id = g.game_id ∧
    ((g.get_current_player).2).num_players = g.num_players ∧
    ((g.get_current_player).2).players = g.players ∧
    ((g.get_current_player).2).board = g.board ∧
    ((g.get_current_player).2).state = g.state ∧
    ((g.get_current_player).2).winner = g.winner ∧
    ((g.get_current_player).2).is_draw = g.is_draw := by
  unfold Game.get_current_player
  split <;> simp

theorem gcp_eq_of_not_playing (g : Game) (h : g.state ≠ GameState.PLAYING) :
    g.get_current_player = (none, g) := by
  unfold Game.get_current_player
  rw [if_pos h]

theorem gcp_eq_of_playing (g : Game) (h : g.state = GameState.PLAYING) :
    g.get_current_player =
      ((Game.currentPlayerAux g.players g.current_player_index g.players.length).1,
        { g with current_player_index :=
            (Game.currentPlayerAux g.players g.current_player_index g.players.length).2 }) := by
  unfold Game.get_current_player
  rw [if_neg (not_not_intro h)]

theorem gcp_idem (g : Game)
    (hidx : g.current_player_index < g.players.length ∨ g.players = []) :
    (((g.get_current_player).2).get_current_player).1 = (g.get_current_player).1 := by
  by_cases hst : g.state = GameState.PLAYING
  · rw [gcp_eq_of_playing g hst]
    dsimp only
    rw [gcp_eq_of_playing
      { g with current_player_index :=
          (Game.currentPlayerAux g.players g.current_player_index g.players.length).2 } hst]
    dsimp only
    rcases hidx with hi | hnil
    · have hL : 0 < g.players.length := Nat.lt_of_le_of_lt (Nat.zero_le _) hi
      rcases hr : Game.currentPlayerAux g.players g.current_player_index g.players.length
        with ⟨o, j⟩
      dsimp only
      cases o with
      | some p =>
        obtain ⟨hget, hact⟩ :=
          currentPlayerAux_some g.players g.players.length g.current_player_index p j hr
        obtain ⟨m, hm⟩ : ∃ m, g.players.length = m + 1 := ⟨g.players.length - 1, by omega⟩
        rw [hm]
        unfold Game.currentPlayerAux
        rw [hget]
        dsimp only
        rw [if_pos hact]
      | none =>
        obtain ⟨hj, hall⟩ := currentPlayerAux_none_props g.players hL g.players.length
          g.current_player_index hi (by rw [hr])
        have hji : j = g.current_player_index := by
          rw [hr] at hj
          dsimp only at hj
          rw [hj, Nat.add_mod_right]
          exact Nat.mod_eq_of_lt hi
        rw [hji,
          currentPlayerAux_all_inactive g.players g.players.length g.current_player_index hi
            hall]
    · rw [hnil]
      simp [Game.currentPlayerAux]
  · rw [gcp_eq_of_not_playing g hst]
    dsimp only
    rw [gcp_eq_of_not_playing g hst]

/-- C7 (turn order skips inactive players only, in circular join order):
while `PLAYING` with a well-formed index, if every roster player is
inactive `get_current_player` returns `none` and leaves the stored index
where it was; and whenever `k` is the circular offset of the first active
player at or after the stored index, it returns exactly that player and
stores that player's index — no active player is skipped out of order. -/
theorem get_current_player_spec (g : Game)
    (hst : g.state = GameState.PLAYING)
    (hi : g.current_player_index < g.players.length) :
    ((∀ q ∈ g.players, q.is_active = false) →
      (g.get_current_player).1 = none ∧
      ((g.get_current_player).2).current_player_index = g.current_player_index) ∧
    (∀ k, k < g.players.length →
      (∀ j, j < k →
        (g.players.getD ((g.current_player_index + j) % g.players.length)
          dfltPlayer).is_active = false) →
      (g.players.getD ((g.current_player_index + k) % g.players.length)
        dfltPlayer).is_active = true →
      (g.get_current_player).1 =
        some (g.players.getD ((g.current_player_index + k) % g.players.length) dfltPlayer) ∧
      ((g.get_current_player).2).current_player_index =
        (g.current_player_index + k) % g.players.length) := by
  have hL : 0 < g.players.length := Nat.lt_of_le_of_lt (Nat.zero_le _) hi
  rw [gcp_eq_of_playing g hst]
  dsimp only
  constructor
  · intro hall
    have hallidx : ∀ j, j < g.players.length →
        (g.players.getD ((g.current_player_index + j) % g.players.length)
          dfltPlayer).is_active = false := by
      intro j hj
      have hlt : (g.current_player_index + j) % g.players.length < g.players.length :=
        Nat.mod_lt _ hL
      rw [getD_of_get? _ _ _ (List.get?_eq_get hlt)]
      exact hall _ (List.get_mem _ _ _)
    rw [currentPlayerAux_all_inactive g.players g.players.length g.current_player_index hi
      hallidx]
    refine ⟨rfl, ?_⟩
    dsimp only
    rw [Nat.add_mod_right]
    exact Nat.mod_eq_of_lt hi
  · intro k hk hjs hact
    rw [currentPlayerAux_found g.players k g.players.length g.current_player_index hi hk hjs
      hact]
    exact ⟨rfl, rfl⟩

/-- Demo players and game used to instantiate witnesses: a 3-player game in
progress whose first roster slot is inactive. -/
def demoPA : Player := { player_id := "a", name := "A", symbol := "X", is_active := false }

def demoPB : Player := { player_id := "b", name := "B", symbol := "O", is_active := true }

def demoPC : Player := { player_id := "c", name := "C", symbol := "Δ", is_active := true }

def demoBoard4 : Board :=
  { num_players := 3
    size := 4
    win_length := 4
    grid := List.replicate 4 (List.replicate 4 none)
    move_count := 0 }

def demoSkipGame : Game :=
  { game_id := "s"
    num_players := 3
    players := [demoPA, demoPB, demoPC]
    board := demoBoard4
    current_player_index := 0
    state := GameState.PLAYING
    winner := none
    is_draw := false }

theorem get_current_player_spec_witness :
    (demoSkipGame.get_current_player).1 =
      some (demoSkipGame.players.getD
        ((demoSkipGame.current_player_index + 1) % demoSkipGame.players.length) dfltPlayer) ∧
    ((demoSkipGame.get_current_player).2).current_player_index =
      (demoSkipGame.current_player_index + 1) % demoSkipGame.players.length :=
  (get_current_player_spec demoSkipGame (by decide) (by decide)).2 1 (by decide)
    (by decide) (by decide)

theorem board_make_move_none_iff (b : Board) (row col : Int) (s : String) :
    b.make_move row col s = none ↔ b.is_valid_move row col = false := by
  unfold Board.make_move
  split <;> simp_all

/-- C1 (move validation): `Game.make_move` succeeds exactly when the game
is `PLAYING`, the acting player is the observable current player (identity
compared by `player_id`), and the target cell is in bounds and empty; every
rejection carries an error message and leaves the board grid, the move
count and the observable current player unchanged. -/
theorem make_move_validation_spec (g : Game) (p : Player) (row col : Int)
    (hidx : g.current_player_index < g.players.length ∨ g.players = []) :
    ((((g.make_move p row col).1).1 = true) ↔
      (g.state = GameState.PLAYING ∧
        Option.map Player.player_id (g.get_current_player).1 = some p.player_id ∧
        g.board.is_valid_move row col = true)) ∧
    ((((g.make_move p row col).1).1 = false) →
      (((g.make_move p row col).1).2.isSome = true ∧
        ((g.make_move p row col).2).board.grid = g.board.grid ∧
        ((g.make_move p row col).2).board.move_count = g.board.move_count ∧
        (((g.make_move p row col).2).get_current_player).1 = (g.get_current_player).1)) := by
  by_cases hst : g.state = GameState.PLAYING
  · have hgcp := gcp_eq_of_playing g hst
    have hIdem := gcp_idem g hidx
    cases hone : (Game.currentPlayerAux g.players g.current_player_index g.players.length).1
      with
    | none =>
      have hmm : g.make_move p row col = ((false, some "Not your turn"),
          { g with current_player_index :=
              (Game.currentPlayerAux g.players g.current_player_index g.players.length).2 })
          := by
        unfold Game.make_move
        rw [if_neg (not_not_intro hst), hgcp, hone]
      constructor
      · rw [hmm]
        simp [hgcp, hone]
      · intro _
        rw [hmm]
        refine ⟨rfl, rfl, rfl, ?_⟩
        simpa [hgcp] using hIdem
    | some cp =>
      by_cases hpid : cp.player_id = p.player_id
      · cases hbm : g.board.make_move row col p.symbol with
        | none =>
          have hmm : g.make_move p row col = ((false, some "Invalid move"),
              { g with current_player_index :=
                  (Game.currentPlayerAux g.players g.current_player_index
                    g.players.length).2 }) := by
            unfold Game.make_move
            rw [if_neg (not_not_intro hst), hgcp, hone]
            dsimp only
            rw [if_neg (not_not_intro hpid), hbm]
          constructor
          · rw [hmm]
            have hval := (board_make_move_none_iff g.board row col p.symbol).mp hbm
            simp [hval]
          · intro _
            rw [hmm]
            refine ⟨rfl, rfl, rfl, ?_⟩
            simpa [hgcp] using hIdem
        | some board2 =>
          have hval : g.board.is_valid_move row col = true := by
            by_contra hc
            rw [(board_make_move_none_iff g.board row col p.symbol).mpr
              (Bool.eq_false_iff.mpr hc)] at hbm
            exact Option.noConfusion hbm
          have hmm1 : (g.make_move p row col).1 = (true, none) := by
            unfold Game.make_move
            rw [if_neg (not_not_intro hst), hgcp, hone]
            dsimp only
            rw [if_neg (not_not_intro hpid), hbm]
            dsimp only
            split
            · rfl
            · split <;> rfl
          constructor
          · rw [hmm1]
            refine iff_of_true rfl ⟨hst, ?_, hval⟩
            rw [hgcp]
            dsimp only
            rw [hone]
            simp [hpid]
          · intro hfalse
            rw [hmm1] at hfalse
            simp at hfalse
      · have hmm : g.make_move p row col = ((false, some "Not your turn"),
            { g with current_player_index :=
                (Game.currentPlayerAux g.players g.current_player_index
                  g.players.length).2 }) := by
          unfold Game.make_move
          rw [if_neg (not_not_intro hst), hgcp, hone]
          dsimp only
          rw [if_pos hpid]
        constructor
        · rw [hmm]
          simp [hgcp, hone, hpid]
        · intro _
          rw [hmm]
          refine ⟨rfl, rfl, rfl, ?_⟩
          simpa [hgcp] using hIdem
  · have hmm : g.make_move p row col = ((false, some "Game is not in progress"), g) := by
      unfold Game.make_move
      rw [if_pos hst]
    rw [hmm]
    constructor
    · simp [hst]
    · intro _
      exact ⟨rfl, rfl, rfl, rfl⟩

theorem make_move_validation_spec_witness :
    ((((demoSkipGame.make_move demoPB 0 0).1).1 = true) ↔
      (demoSkipGame.state = GameState.PLAYING ∧
        Option.map Player.player_id (demoSkipGame.get_current_player).1 =
          some demoPB.player_id ∧
        demoSkipGame.board.is_valid_move 0 0 = true)) ∧
    (((demoSkipGame.make_move demoPA 0 0).1).1 = false →
      (((demoSkipGame.make_move demoPA 0 0).1).2.isSome = true ∧
        ((demoSkipGame.make_move demoPA 0 0).2).board.grid = demoSkipGame.board.grid ∧
        ((demoSkipGame.make_move demoPA 0 0).2).board.move_count =
          demoSkipGame.board.move_count ∧
        (((demoSkipGame.make_move demoPA 0 0).2).get_current_player).1 =
          (demoSkipGame.get_current_player).1)) :=
  ⟨(make_move_validation_spec demoSkipGame demoPB 0 0 (Or.inl (by decide))).1,
   (make_move_validation_spec demoSkipGame demoPA 0 0 (Or.inl (by decide))).2⟩

/-- C2 (anchored win detection): for an in-bounds anchor, `check_winner`
returns the anchor's symbol exactly when one of the four directions
carries a contiguous run of that symbol through the anchor — both directed
arms plus the anchor itself — of length at least `win_length`; it returns
`none` for an empty anchor cell. -/
theorem check_winner_run_spec (b : Board) (row col : Int)
    (hrow : 0 ≤ row ∧ row < (b.size : Int)) (hcol : 0 ≤ col ∧ col < (b.size : Int)) :
    (∀ s, b.check_winner row col = some s ↔
      (b.cellAt row col = some s ∧
        ∃ d ∈ Board.directions, b.win_length ≤ b.runLength s row col d)) ∧
    (b.cellAt row col = none → b.check_winner row col = none) := by
  constructor
  · intro s
    unfold Board.check_winner
    cases h : b.cellAt row col with
    | none => simp
    | some symbol =>
      dsimp only
      by_cases hany : (Board.directions.any
          (fun d => decide (b.win_length ≤ b.runLength symbol row col d))) = true
      · rw [if_pos hany]
        constructor
        · intro he
          have hs : symbol = s := Option.some.inj he
          subst hs
          refine ⟨rfl, ?_⟩
          rcases List.any_eq_true.mp hany with ⟨d, hd, hdec⟩
          exact ⟨d, hd, of_decide_eq_true hdec⟩
        · rintro ⟨h1, -⟩
          exact h1
      · rw [if_neg hany]
        constructor
        · intro he
          exact absurd he (by simp)
        · rintro ⟨h1, d, hd, hlen⟩
          have hs : symbol = s := Option.some.inj h1
          subst hs
          exact absurd (List.any_eq_true.mpr ⟨d, hd, decide_eq_true hlen⟩) hany
  · intro h
    unfold Board.check_winner
    rw [h]

/-- Concrete board used to instantiate the C2 witness. -/
def demoWinBoard : Board :=
  { num_players := 2
    size := 3
    win_length := 3
    grid := [[some "X", some "X", some "X"], [some "O", some "O", none], [none, none, none]]
    move_count := 5 }

theorem check_winner_run_spec_witness :
    demoWinBoard.check_winner 1 2 = none ∧ demoWinBoard.check_winner 0 2 = some "X" :=
  ⟨(check_winner_run_spec demoWinBoard 1 2 (by decide) (by decide)).2 (by decide),
   by decide⟩

/-- Game states reachable through the operations of `common/game.py`:
construction plus the four mutating entry points. -/
inductive Reachable : Game → Prop where
  | init (gid : String) (n : Int) (g : Game) (h : Game.init gid n = Except.ok g) :
      Reachable g
  | add (g : Game) (p : Player) (g2 : Game) (hr : Reachable g)
      (h : g.add_player p = some g2) : Reachable g2
  | remove (g : Game) (p : Player) (g2 : Game) (hr : Reachable g)
      (h : g.remove_player p = some g2) : Reachable g2
  | cur (g : Game) (hr : Reachable g) : Reachable (g.get_current_player).2
  | move (g : Game) (p : Player) (row col : Int) (hr : Reachable g) :
      Reachable ((g.make_move p row col).2)

/-- Roster-size invariant: strictly below capacity while `WAITING`, exactly
at capacity otherwise. -/
def Game.rosterInv (g : Game) : Prop :=
  (g.state = GameState.WAITING → (g.players.length : Int) < g.num_players) ∧
  (g.state ≠ GameState.WAITING → (g.players.length : Int) = g.num_players)

theorem make_move_snd_cases (g : Game) (p : Player) (row col : Int) :
    (g.make_move p row col).2.players = g.players ∧
    (g.make_move p row col).2.num_players = g.num_players ∧
    ((g.make_move p row col).2.state = g.state ∨
      (g.state = GameState.PLAYING ∧ (g.make_move p row col).2.state = GameState.FINISHED))
    := by
  have hf := gcp_fields g
  unfold Game.make_move
  split
  · exact ⟨rfl, rfl, Or.inl rfl⟩
  case isFalse hne =>
    have hst : g.state = GameState.PLAYING := not_not.mp hne
    split
    case h_1 o g1 heq =>
      have h2 : (g.get_current_player).2 = g1 := congrArg Prod.snd heq
      rw [← h2]
      exact ⟨hf.2.2.1, hf.2.1, Or.inl hf.2.2.2.2.1⟩
    case h_2 cp g1 heq =>
      have h2 : (g.get_current_player).2 = g1 := congrArg Prod.snd heq
      split
      · rw [← h2]
        exact ⟨hf.2.2.1, hf.2.1, Or.inl hf.2.2.2.2.1⟩
      · split
        · rw [← h2]
          exact ⟨hf.2.2.1, hf.2.1, Or.inl hf.2.2.2.2.1⟩
        · split
          · refine ⟨?_, ?_, Or.inr ⟨hst, rfl⟩⟩
            · show g1.players = g.players
              rw [← h2]
              exact hf.2.2.1
            · show g1.num_players = g.num_players
              rw [← h2]
              exact hf.2.1
          · split
            · refine ⟨?_, ?_, Or.inr ⟨hst, rfl⟩⟩
              · show g1.players = g.players
                rw [← h2]
                exact hf.2.2.1
              · show g1.num_players = g.num_players
                rw [← h2]
                exact hf.2.1
            · refine ⟨?_, ?_, Or.inl ?_⟩
              · show g1.players = g.players
                rw [← h2]
                exact hf.2.2.1
              · show g1.num_players = g.num_players
                rw [← h2]
                exact hf.2.1
              · show g1.state = g.state
                rw [← h2]
                exact hf.2.2.2.2.1

theorem reachable_rosterInv (g : Game) (h : Reachable g) : g.rosterInv := by
  induction h with
  | init gid n g0 h0 =>
    unfold Game.init at h0
    cases hb : Board.init n with
    | error e => rw [hb] at h0; exact absurd h0 (by simp)
    | ok b =>
      rw [hb] at h0
      obtain rfl := Except.ok.inj h0
      unfold Board.init at hb
      by_cases hc : (n < 2 ∨ 10 < n)
      · rw [if_pos hc] at hb
        exact absurd hb (by simp)
      · constructor
        · intro _
          dsimp
          omega
        · intro hne
          exact absurd rfl hne
  | add g p g2 hr h ih =>
    unfold Game.add_player at h
    by_cases h1 : g.num_players ≤ (g.players.length : Int)
    · rw [if_pos h1] at h
      exact absurd h (by simp)
    · rw [if_neg h1] at h
      by_cases h2 : g.players.any (fun q => decide (q.player_id = p.player_id)) = true
      · rw [if_pos h2] at h
        exact absurd h (by simp)
      · rw [if_neg h2] at h
        dsimp only at h
        obtain rfl := Option.some.inj h
        have hw : g.state = GameState.WAITING := by
          by_contra hnw
          have := ih.2 hnw
          omega
        constructor
        · intro hw2
          dsimp only at hw2 ⊢
          by_cases heq : (((g.players ++ [p]).length : Nat) : Int) = g.num_players
          · rw [if_pos heq] at hw2
            exact absurd hw2 (by simp)
          · rw [List.length_append] at heq ⊢
            simp only [List.length_singleton] at heq ⊢
            omega
        · intro hne
          dsimp only at hne ⊢
          by_cases heq : (((g.players ++ [p]).length : Nat) : Int) = g.num_players
          · exact heq
          · rw [if_neg heq] at hne
            exact absurd hw hne
  | remove g p g2 hr h ih =>
    unfold Game.remove_player at h
    by_cases h1 : g.players.any (fun q => decide (q.player_id = p.player_id)) = true
    · rw [if_pos h1] at h
      obtain rfl := Option.some.inj h
      constructor
      · intro hw2
        dsimp only at hw2 ⊢
        rw [List.length_map]
        by_cases hp : g.state = GameState.PLAYING
        · rw [if_pos hp] at hw2
          exact absurd hw2 (by simp)
        · rw [if_neg hp] at hw2
          exact ih.1 hw2
      · intro hne
        dsimp only at hne ⊢
        rw [List.length_map]
        by_cases hp : g.state = GameState.PLAYING
        · exact ih.2 (by rw [hp]; simp)
        · rw [if_neg hp] at hne
          exact ih.2 hne
    · rw [if_neg h1] at h
      exact absurd h (by simp)
  | cur g hr ih =>
    have hf := gcp_fields g
    unfold Game.rosterInv
    rw [hf.2.2.1, hf.2.1, hf.2.2.2.2.1]
    exact ih
  | move g p row col hr ih =>
    obtain ⟨hpl, hnum, hstcase⟩ := make_move_snd_cases g p row col
    constructor
    · intro hw
      rw [hpl, hnum]
      rcases hstcase with heq | ⟨hp2, hfin⟩
      · exact ih.1 (by rw [← heq]; exact hw)
      · rw [hfin] at hw
        exact absurd hw (by simp)
    · intro hne
      rw [hpl, hnum]
      rcases hstcase with heq | ⟨hp2, _⟩
      · exact ih.2 (by rw [← heq]; exact hne)
      · exact ih.2 (by rw [hp2]; simp)

/-- C3 (state invariants): in every reachable game, `PLAYING` implies a
full roster, and once `FINISHED` every operation leaves the state
`FINISHED` and every further `make_move` is rejected. -/
theorem finished_terminal_invariant (g : Game) (hr : Reachable g)
    (p : Player) (g2 g3 : Game) (row col : Int) :
    (g.state = GameState.PLAYING → (g.players.length : Int) = g.num_players) ∧
    (g.state = GameState.FINISHED →
      ((g.add_player p = some g2 → g2.state = GameState.FINISHED) ∧
        (g.remove_player p = some g3 → g3.state = GameState.FINISHED) ∧
        ((g.get_current_player).2.state = GameState.FINISHED) ∧
        ((g.make_move p row col).1 = (false, some "Game is not in progress") ∧
          ((g.make_move p row col).2).state = GameState.FINISHED))) := by
  have hinv := reachable_rosterInv g hr
  constructor
  · intro hp
    exact hinv.2 (by rw [hp]; simp)
  · intro hfin
    have hlen : (g.players.length : Int) = g.num_players := hinv.2 (by rw [hfin]; simp)
    have hnp : g.state ≠ GameState.PLAYING := by rw [hfin]; simp
    refine ⟨?_, ?_, ?_, ?_, ?_⟩
    · intro hadd
      unfold Game.add_player at hadd
      rw [if_pos (le_of_eq hlen.symm)] at hadd
      exact absurd hadd (by simp)
    · intro hrem
      unfold Game.remove_player at hrem
      by_cases hmem : g.players.any (fun q => decide (q.player_id = p.player_id)) = true
      · rw [if_pos hmem] at hrem
        obtain rfl := Option.some.inj hrem
        dsimp only
        rw [if_neg hnp]
        exact hfin
      · rw [if_neg hmem] at hrem
        exact absurd hrem (by simp)
    · rw [gcp_eq_of_not_playing g hnp]
      exact hfin
    · unfold Game.make_move
      rw [if_pos hnp]
    · unfold Game.make_move
      rw [if_pos hnp]
      exact hfin

/-- `Protocol.DELIMITER` (the newline byte) from `common/protocol.py`. -/
def Protocol.DELIMITER : Nat := 10

/-- The frame-extraction loop of `ClientHandler._receive_loop` together
with `_process_message`: as long as the buffer contains the delimiter,
split off the first frame, decode it (`Protocol.decode_message`, modelled
as the `decode` argument since the claim depends only on its `Option`
result), drop it when decoding fails, and deliver it otherwise; the final
remainder is the partial frame kept for the next receive.  Each iteration
consumes the delimiter byte, so `buffer.length` fuel never cuts the Python
`while` loop short. -/
def ClientHandler.process_buffer_aux {α : Type} (decode : List Nat → Option α) :
    Nat → List Nat → List α × List Nat
  | 0, buffer => ([], buffer)
  | fuel + 1, buffer =>
    if Protocol.DELIMITER ∈ buffer then
      let f := buffer.takeWhile (fun b => decide (b ≠ Protocol.DELIMITER))
      let rest := (buffer.dropWhile (fun b => decide (b ≠ Protocol.DELIMITER))).drop 1
      match decode f, ClientHandler.process_buffer_aux decode fuel rest with
      | some m, (msgs, rem) => (m :: msgs, rem)
      | none, (msgs, rem) => (msgs, rem)
    else ([], buffer)

/-- Delivered messages and final buffer of one pass of the receive loop. -/
def ClientHandler.process_buffer {α : Type} (decode : List Nat → Option α)
    (buffer : List Nat) : List α × List Nat :=
  ClientHandler.process_buffer_aux decode buffer.length buffer

/-- Wire image of a sequence of complete frames, each terminated by the
delimiter byte. -/
def joinFrames (fs : List (List Nat)) : List Nat :=
  fs.foldr (fun f acc => f ++ Protocol.DELIMITER :: acc) []

theorem takeWhile_frame (f t : List Nat) (hf : Protocol.DELIMITER ∉ f) :
    (f ++ Protocol.DELIMITER :: t).takeWhile (fun b => decide (b ≠ Protocol.DELIMITER))
      = f := by
  induction f with
  | nil => simp [List.takeWhile_cons]
  | cons a f ih =>
    have ha : a ≠ Protocol.DELIMITER := fun h => hf (by simp [h])
    have ih' := ih (fun h => hf (List.mem_cons_of_mem _ h))
    simp only [List.cons_append, List.takeWhile_cons]
    rw [if_pos (by simp [ha]), ih']

theorem dropWhile_frame (f t : List Nat) (hf : Protocol.DELIMITER ∉ f) :
    (f ++ Protocol.DELIMITER :: t).dropWhile (fun b => decide (b ≠ Protocol.DELIMITER))
      = Protocol.DELIMITER :: t := by
  induction f with
  | nil => simp [List.dropWhile_cons]
  | cons a f ih =>
    have ha : a ≠ Protocol.DELIMITER := fun h => hf (by simp [h])
    have ih' := ih (fun h => hf (List.mem_cons_of_mem _ h))
    simp only [List.cons_append, List.dropWhile_cons]
    rw [if_pos (by simp [ha]), ih']

theorem process_buffer_aux_join {α : Type} (decode : List Nat → Option α) :
    ∀ (fs : List (List Nat)) (rest : List Nat) (fuel : Nat),
      (∀ f ∈ fs, Protocol.DELIMITER ∉ f) → Protocol.DELIMITER ∉ rest →
      (joinFrames fs ++ rest).length ≤ fuel →
      ClientHandler.process_buffer_aux decode fuel (joinFrames fs ++ rest) =
        (fs.filterMap decode, rest) := by
  intro fs
  induction fs with
  | nil =>
    intro rest fuel _ hrest _
    cases fuel with
    | zero => simp [joinFrames, ClientHandler.process_buffer_aux]
    | succ fuel =>
      simp only [joinFrames, List.foldr_nil, List.nil_append, List.filterMap_nil]
      unfold ClientHandler.process_buffer_aux
      rw [if_neg hrest]
  | cons f fs ih =>
    intro rest fuel hfs hrest hfuel
    have hf : Protocol.DELIMITER ∉ f := hfs f (by simp)
    have hfs' : ∀ g ∈ fs, Protocol.DELIMITER ∉ g := fun g hg => hfs g (by simp [hg])
    have hbuf : joinFrames (f :: fs) ++ rest =
        f ++ Protocol.DELIMITER :: (joinFrames fs ++ rest) := by
      simp [joinFrames]
    rw [hbuf] at hfuel ⊢
    obtain ⟨fuel', rfl⟩ : ∃ fuel', fuel = fuel' + 1 := by
      refine ⟨fuel - 1, ?_⟩
      have : 0 < (f ++ Protocol.DELIMITER :: (joinFrames fs ++ rest)).length := by simp
      omega
    have hlen' : (joinFrames fs ++ rest).length ≤ fuel' := by
      rw [List.length_append] at hfuel
      simp only [List.length_cons] at hfuel
      omega
    unfold ClientHandler.process_buffer_aux
    rw [if_pos (by simp)]
    rw [takeWhile_frame f _ hf, dropWhile_frame f _ hf]
    simp only [List.drop_succ_cons, List.drop_zero]
    rw [ih rest fuel' hfs' hrest hlen']
    cases hdf : decode f <;> simp [List.filterMap_cons, hdf]

/-- C8 (malformed frames are dropped, the loop continues): in any received
byte stream made of complete frames around one malformed frame plus a
trailing partial frame, the receive loop delivers exactly the decodable
frames in order — the malformed frame reaches no callback — and keeps
processing the frames after it, preserving the partial remainder for the
next read; the session is not torn down by the bad frame. -/
theorem malformed_frame_dropped {α : Type} (decode : List Nat → Option α)
    (pre post : List (List Nat)) (bad rest : List Nat)
    (hpre : ∀ f ∈ pre, Protocol.DELIMITER ∉ f)
    (hbad : Protocol.DELIMITER ∉ bad)
    (hpost : ∀ f ∈ post, Protocol.DELIMITER ∉ f)
    (hrest : Protocol.DELIMITER ∉ rest)
    (hdec : decode bad = none) :
    ClientHandler.process_buffer decode (joinFrames (pre ++ bad :: post) ++ rest) =
      ((pre ++ post).filterMap decode, rest) := by
  unfold ClientHandler.process_buffer
  rw [process_buffer_aux_join decode (pre ++ bad :: post) rest _ ?hall hrest le_rfl]
  · simp [List.filterMap_append, List.filterMap_cons, hdec]
  case hall =>
    intro f hf
    rcases List.mem_append.mp hf with h | h
    · exact hpre f h
    · rcases List.mem_cons.mp h with rfl | h2
      · exact hbad
      · exact hpost f h2

/-- Concrete decoder used to instantiate the C8 witness. -/
def demoDecode : List Nat → Option Nat := fun f => if f = [65] then some 1 else none

theorem malformed_frame_dropped_witness :
    ClientHandler.process_buffer demoDecode (joinFrames [[65], [66], [65]] ++ [67]) =
      (([[65], [65]] : List (List Nat)).filterMap demoDecode, [67]) :=
  malformed_frame_dropped demoDecode [[65]] [[65]] [66] [67]
    (by decide) (by decide) (by decide) (by decide) (by decide)

theorem getD_eq_of_get? {α : Type} (l : List α) (i : Nat) (d x : α)
    (h : l.get? i = some x) : l.getD i d = x := by
  have h' : l[i]? = some x := by
    rw [← List.get?_eq_getElem?]
    exact h
  simp [List.getD, h']

theorem countP_set_of_get {α : Type} (l : List α) (p : α → Bool) :
    ∀ (i : Nat) (h : i < l.length) (a : α),
      (l.set i a).countP p + (if p (l.get ⟨i, h⟩) then 1 else 0) =
        l.countP p + (if p a then 1 else 0) := by
  induction l with
  | nil =>
    intro i h a
    simp at h
  | cons x t ih =>
    intro i h a
    cases i with
    | zero =>
      by_cases hx : p x <;> by_cases ha : p a <;>
        simp [List.countP_cons, hx, ha]
    | succ i =>
      have hi : i < t.length := by simpa using h
      have hrec := ih i hi a
      simp only [List.get_eq_getElem] at hrec
      by_cases hx : p x <;> simp [List.countP_cons, hx] <;> omega

theorem sum_map_set {α : Type} (l : List α) (f : α → Nat) :
    ∀ (i : Nat) (h : i < l.length) (a : α),
      ((l.set i a).map f).sum + f (l.get ⟨i, h⟩) = (l.map f).sum + f a := by
  induction l with
  | nil =>
    intro i h a
    simp at h
  | cons x t ih =>
    intro i h a
    cases i with
    | zero =>
      simp [List.sum_cons]
      omega
    | succ i =>
      have hi : i < t.length := by simpa using h
      have hrec := ih i hi a
      simp [List.sum_cons] at hrec ⊢
      omega

theorem sum_map_const_nat {α : Type} (l : List α) (k : Nat) :
    (l.map (fun _ => k)).sum = l.length * k := by
  induction l with
  | nil => simp
  | cons x t ih =>
    simp [List.sum_cons, ih]
    ring

/-- Number of occupied cells of the board. -/
def Board.filled (b : Board) : Nat :=
  (b.grid.map (fun row => row.countP (fun c => c.isSome))).sum

/-- Well-formedness carried by every board the code can build: square grid
of side `size`, and `move_count` equal to the number of occupied cells. -/
def Board.wfInv (b : Board) : Prop :=
  b.grid.length = b.size ∧ (∀ row ∈ b.grid, row.length = b.size) ∧
    b.move_count = b.filled

/-- Boards reachable through `Board.__init__` and successful
`Board.make_move` calls. -/
inductive ReachableBoard : Board → Prop where
  | init (n : Int) (b : Board) (h : Board.init n = Except.ok b) : ReachableBoard b
  | move (b : Board) (row col : Int) (s : String) (b2 : Board) (hr : ReachableBoard b)
      (h : b.make_move row col s = some b2) : ReachableBoard b2

theorem reachableBoard_wfInv (b : Board) (h : ReachableBoard b) : b.wfInv := by
  induction h with
  | init n b0 h0 =>
    unfold Board.init at h0
    by_cases hc : (n < 2 ∨ 10 < n)
    · rw [if_pos hc] at h0
      exact absurd h0 (by simp)
    · rw [if_neg hc] at h0
      dsimp only at h0
      obtain rfl := Except.ok.inj h0
      refine ⟨by simp, ?_, ?_⟩
      · intro row hrow
        rw [List.eq_of_mem_replicate hrow]
        simp
      · dsimp only [Board.filled]
        rw [List.map_replicate]
        have hz : (List.replicate ((n + 1).toNat) (none : Option String)).countP
            (fun c => c.isSome) = 0 := by
          rw [List.countP_eq_zero]
          intro a ha
          rw [List.eq_of_mem_replicate ha]
          simp
        rw [hz]
        simp [List.sum_replicate]
  | move b row col s b2 hr h ih =>
    obtain ⟨hlen, hrows, hmc⟩ := ih
    unfold Board.make_move at h
    by_cases hv : b.is_valid_move row col = true
    · rw [if_pos hv] at h
      obtain rfl := Option.some.inj h
      unfold Board.is_valid_move at hv
      have hbounds : ¬(row < 0 ∨ (b.size : Int) ≤ row ∨ col < 0 ∨ (b.size : Int) ≤ col) := by
        by_contra hcon
        rw [if_pos hcon] at hv
        exact absurd hv (by simp)
      rw [if_neg hbounds] at hv
      push_neg at hbounds
      have hr1 : row.toNat < b.grid.length := by
        rw [hlen]
        omega
      have hrowD : b.grid.getD row.toNat [] = b.grid.get ⟨row.toNat, hr1⟩ :=
        getD_eq_of_get? _ _ _ _ (List.get?_eq_get hr1)
      have hrowlen : (b.grid.get ⟨row.toNat, hr1⟩).length = b.size :=
        hrows _ (List.get_mem _ _ _)
      have hc1 : col.toNat < (b.grid.get ⟨row.toNat, hr1⟩).length := by
        rw [hrowlen]
        omega
      have hcellD : (b.grid.get ⟨row.toNat, hr1⟩).getD col.toNat none =
          (b.grid.get ⟨row.toNat, hr1⟩).get ⟨col.toNat, hc1⟩ :=
        getD_eq_of_get? _ _ _ _ (List.get?_eq_get hc1)
      rw [hrowD, hcellD] at hv
      have hcellnone : (b.grid.get ⟨row.toNat, hr1⟩).get ⟨col.toNat, hc1⟩ = none :=
        Option.isNone_iff_eq_none.mp hv
      refine ⟨by simpa using hlen, ?_, ?_⟩
      · intro row2 hmem
        dsimp only at hmem
        rcases List.mem_or_eq_of_mem_set hmem with hmem' | rfl
        · exact hrows _ hmem'
        · rw [hrowD, List.length_set]
          exact hrowlen
      · dsimp only [Board.filled]
        rw [hrowD]
        have hsum := sum_map_set b.grid (fun row => row.countP (fun c => c.isSome))
          row.toNat hr1 ((b.grid.get ⟨row.toNat, hr1⟩).set col.toNat (some s))
        have hcnt := countP_set_of_get (b.grid.get ⟨row.toNat, hr1⟩)
          (fun c => c.isSome) col.toNat hc1 (some s)
        rw [hcellnone] at hcnt
        simp at hcnt
        unfold Board.filled at hmc
        simp only [List.get_eq_getElem] at hsum hcnt ⊢
        omega
    · rw [if_neg hv] at h
      exact absurd h (by simp)

theorem make_move_winner_draw (g : Game) (p : Player) (row col : Int) :
    ((g.make_move p row col).2.winner = g.winner ∧
      (g.make_move p row col).2.is_draw = g.is_draw) ∨
    ((g.make_move p row col).2.winner = some p ∧
      (g.make_move p row col).2.is_draw = g.is_draw) ∨
    ((g.make_move p row col).2.winner = g.winner ∧
      (g.make_move p row col).2.is_draw = true) := by
  have hf := gcp_fields g
  unfold Game.make_move
  split
  · exact Or.inl ⟨rfl, rfl⟩
  case isFalse hne =>
    split
    case h_1 o g1 heq =>
      have h2 : (g.get_current_player).2 = g1 := congrArg Prod.snd heq
      rw [← h2]
      exact Or.inl ⟨hf.2.2.2.2.2.1, hf.2.2.2.2.2.2⟩
    case h_2 cp g1 heq =>
      have h2 : (g.get_current_player).2 = g1 := congrArg Prod.snd heq
      split
      · rw [← h2]
        exact Or.inl ⟨hf.2.2.2.2.2.1, hf.2.2.2.2.2.2⟩
      · split
        · rw [← h2]
          exact Or.inl ⟨hf.2.2.2.2.2.1, hf.2.2.2.2.2.2⟩
        · split
          · refine Or.inr (Or.inl ⟨rfl, ?_⟩)
            show g1.is_draw = g.is_draw
            rw [← h2]
            exact hf.2.2.2.2.2.2
          · split
            · refine Or.inr (Or.inr ⟨?_, rfl⟩)
              show g1.winner = g.winner
              rw [← h2]
              exact hf.2.2.2.2.2.1
            · refine Or.inl ⟨?_, ?_⟩
              · show g1.winner = g.winner
                rw [← h2]
                exact hf.2.2.2.2.2.1
              · show g1.is_draw = g.is_draw
                rw [← h2]
                exact hf.2.2.2.2.2.2

/-- C6 (full board and draw/win exclusivity): on reachable boards
`is_full` holds exactly when `move_count = size²`, and a single
`Game.make_move` never changes the winner and the draw flag together — in
particular a winning move leaves `is_draw` false. -/
theorem board_full_draw_spec (b : Board) (g : Game) (p : Player) (row col : Int) :
    (ReachableBoard b → (b.is_full = true ↔ b.move_count = b.size * b.size)) ∧
    ((g.make_move p row col).2.winner = g.winner ∨
      (g.make_move p row col).2.is_draw = g.is_draw) ∧
    (g.is_draw = false → (g.make_move p row col).2.winner ≠ g.winner →
      (g.make_move p row col).2.is_draw = false) := by
  refine ⟨?_, ?_, ?_⟩
  · intro hrb
    obtain ⟨hlen, hrows, hmc⟩ := reachableBoard_wfInv b hrb
    have hfl : b.filled ≤ b.size * b.size := by
      dsimp only [Board.filled]
      have h1 : ∀ row ∈ b.grid, row.countP (fun c => c.isSome) ≤ b.size := fun row hrow =>
        le_trans (List.countP_le_length _) (le_of_eq (hrows row hrow))
      calc (b.grid.map (fun row => row.countP (fun c => c.isSome))).sum
          ≤ (b.grid.map (fun _ => b.size)).sum := List.sum_le_sum h1
        _ = b.grid.length * b.size := sum_map_const_nat b.grid b.size
        _ = b.size * b.size := by rw [hlen]
    unfold Board.is_full
    constructor
    · intro hdec
      have := of_decide_eq_true hdec
      omega
    · intro heq
      exact decide_eq_true (by omega)
  · rcases make_move_winner_draw g p row col with ⟨hw, hd⟩ | ⟨hw, hd⟩ | ⟨hw, hd⟩
    · exact Or.inl hw
    · exact Or.inr hd
    · exact Or.inl hw
  · intro hdrawfalse hwchange
    rcases make_move_winner_draw g p row col with ⟨hw, hd⟩ | ⟨hw, hd⟩ | ⟨hw, hd⟩
    · exact absurd hw hwchange
    · rw [hd]
      exact hdrawfalse
    · exact absurd hw hwchange

/-- Concrete boards used to instantiate the C6 witness. -/
def demoB0 : Board :=
  match Board.init 2 with
  | Except.ok b => b
  | Except.error _ => demoBoard4

def demoB1 : Board := (demoB0.make_move 0 0 "X").getD demoB0

/-- Junk fallback value used when unwrapping demo constructions. -/
def junkGame : Game :=
  { game_id := ""
    num_players := 0
    players := []
    board := demoBoard4
    current_player_index := 0
    state := GameState.WAITING
    winner := none
    is_draw := false }

def demoWA : Player := { player_id := "wa", name := "WA", symbol := "X", is_active := true }

def demoWB : Player := { player_id := "wb", name := "WB", symbol := "O", is_active := true }

/-- Concrete two-player game played to a finished (won) position, built by
the actual operations so that it is reachable. -/
def demoG0 : Game :=
  match Game.init "g" 2 with
  | Except.ok g => g
  | Except.error _ => junkGame

def demoG1 : Game := (demoG0.add_player demoWA).getD junkGame

def demoG2 : Game := (demoG1.add_player demoWB).getD junkGame

def demoG3 : Game := (demoG2.make_move demoWA 0 0).2

def demoG4 : Game := (demoG3.make_move demoWB 1 0).2

def demoG5 : Game := (demoG4.make_move demoWA 0 1).2

def demoG6 : Game := (demoG5.make_move demoWB 1 1).2

def demoGFin : Game := (demoG6.make_move demoWA 0 2).2

theorem demoGFin_reachable : Reachable demoGFin :=
  Reachable.move demoG6 demoWA 0 2
    (Reachable.move demoG5 demoWB 1 1
      (Reachable.move demoG4 demoWA 0 1
        (Reachable.move demoG3 demoWB 1 0
          (Reachable.move demoG2 demoWA 0 0
            (Reachable.add demoG1 demoWB demoG2
              (Reachable.add demoG0 demoWA demoG1
                (Reachable.init "g" 2 demoG0 rfl)
                (by decide))
              (by decide))))))

theorem finished_terminal_invariant_witness :
    (demoGFin.make_move demoWA 2 2).1 = (false, some "Game is not in progress") ∧
    ((demoGFin.make_move demoWA 2 2).2).state = GameState.FINISHED :=
  ((finished_terminal_invariant demoGFin demoGFin_reachable demoWA junkGame junkGame 2 2).2
    (by decide)).2.2.2

theorem board_full_draw_spec_witness :
    (demoB1.is_full = true ↔ demoB1.move_count = demoB1.size * demoB1.size) ∧
    ((demoG6.make_move demoWA 0 2).2.winner = demoG6.winner ∨
      (demoG6.make_move demoWA 0 2).2.is_draw = demoG6.is_draw) ∧
    (demoG6.make_move demoWA 0 2).2.is_draw = false :=
  ⟨(board_full_draw_spec demoB1 demoG6 demoWA 0 2).1
      (ReachableBoard.move demoB0 0 0 "X" demoB1 (ReachableBoard.init 2 demoB0 rfl) rfl),
   (board_full_draw_spec demoB1 demoG6 demoWA 0 2).2.1,
   (board_full_draw_spec demoB1 demoG6 demoWA 0 2).2.2 (by decide) (by decide)⟩

theorem board_init_range_check_witness :
    Board.init 11 = Except.error "Number of players must be between 2 and 10" ∧
    (Board.init 2).isOk = true ∧
    (GameManager.empty.create_game "g1" 0).isOk = false :=
  ⟨((board_init_range_check 11 GameManager.empty "g0").1 (by decide)).1,
   ((board_init_range_check 2 GameManager.empty "g1").2 (by decide) (by decide)).1,
   by decide⟩

theorem join_game_success (gm : GameManager) (gid : String) (p : Player) (game : Game)
    (hg : gm.get_game gid = some game) (hw : game.state = GameState.WAITING)
    (hnm : lookupA gm.player_to_game p.player_id = none)
    (hcap : (game.players.length : Int) < game.num_players)
    (hmem : ∀ q ∈ game.players, q.player_id ≠ p.player_id) :
    (gm.join_game gid p).1 = (true, none) ∧
    (gm.join_game gid p).2.get_game gid = some
      { game with
        players := game.players ++ [p]
        state := if ((game.players ++ [p]).length : Int) = game.num_players then
            GameState.PLAYING
          else game.state } ∧
    lookupA (gm.join_game gid p).2.player_to_game p.player_id = some gid := by
  have hany : game.players.any (fun q => decide (q.player_id = p.player_id)) = false := by
    rw [List.any_eq_false]
    intro q hq
    simpa using hmem q hq
  have hadd : game.add_player p = some
      { game with
        players := game.players ++ [p]
        state := if ((game.players ++ [p]).length : Int) = game.num_players then
            GameState.PLAYING
          else game.state } := by
    unfold Game.add_player
    rw [if_neg (not_le.mpr hcap)]
    rw [if_neg (by rw [hany]; exact Bool.false_ne_true)]
  unfold GameManager.join_game
  rw [hg]
  dsimp only
  rw [if_neg (not_not_intro hw), hnm]
  dsimp only
  rw [hadd]
  refine ⟨rfl, ?_, ?_⟩
  · unfold GameManager.get_game
    dsimp only
    exact lookupA_insertA_self _ _ _
  · dsimp only
    exact lookupA_insertA_self _ _ _

/-- C4 counterexample scenario: create a three-player game `A`, let `q`
and then `p` join, let `p` quit, and let `p` try to rejoin. -/
def demoM1 : GameManager :=
  match GameManager.empty.create_game "A" 3 with
  | Except.ok r => r.2
  | Except.error _ => GameManager.empty

def demoM2 : GameManager := (Server.handle_join_game demoM1 "q" "Q" "A").2

def demoM3 : GameManager := (Server.handle_join_game demoM2 "p" "P" "A").2

def demoM4 : GameManager := Server.handle_quit_game demoM3 "p"

def demoA4 : Game := (demoM4.get_game "A").getD junkGame

/-- C4 counterexample: after join–quit, game `A` is `WAITING` with free
capacity (2 of 3 roster slots, counting the leaver's kept-but-inactive
entry) and `p` is mapped to no game, yet `p`'s rejoin is rejected with
"Game is full" — the claim says this join must succeed. -/
theorem join_game_rejoin_cex :
    demoM4.get_game "A" = some demoA4 ∧
    demoA4.state = GameState.WAITING ∧
    demoA4.players.length = 2 ∧
    demoA4.num_players = 3 ∧
    lookupA demoM4.player_to_game "p" = none ∧
    (Server.handle_join_game demoM4 "p" "P" "A").1 = (false, some "Game is full") := by
  decide

/-- C4 as amended: an unknown or non-`WAITING` game rejects a join with no
registry change; a `WAITING` game with free capacity accepts a joiner who
is unmapped and — the amendment — whose id is not already on the roster,
appending the player, assigning `SYMBOLS[len(players)]` (the k-th joiner
gets `SYMBOLS[k-1]`), recording the mapping, and flipping to `PLAYING`
exactly when the roster reaches capacity. -/
theorem join_game_spec_amended (gm : GameManager) (gid : String) (p : Player)
    (game : Game) (pid nm : String) :
    (gm.get_game gid = none → gm.join_game gid p = ((false, some "Game not found"), gm)) ∧
    (gm.get_game gid = some game → game.state ≠ GameState.WAITING →
      gm.join_game gid p = ((false, some "Game already started"), gm)) ∧
    (gm.get_game gid = some game → game.state = GameState.WAITING →
      lookupA gm.player_to_game p.player_id = none →
      (game.players.length : Int) < game.num_players →
      (∀ q ∈ game.players, q.player_id ≠ p.player_id) →
      ((gm.join_game gid p).1 = (true, none) ∧
        (gm.join_game gid p).2.get_game gid = some
          { game with
            players := game.players ++ [p]
            state := if ((game.players ++ [p]).length : Int) = game.num_players then
                GameState.PLAYING
              else game.state } ∧
        lookupA (gm.join_game gid p).2.player_to_game p.player_id = some gid)) ∧
    (gm.get_game gid = some game → game.state = GameState.WAITING →
      lookupA gm.player_to_game pid = none →
      (game.players.length : Int) < game.num_players →
      game.players.length < 10 →
      (∀ q ∈ game.players, q.player_id ≠ pid) →
      ((Server.handle_join_game gm pid nm gid).1 = (true, none) ∧
        (Server.handle_join_game gm pid nm gid).2.get_game gid = some
          { game with
            players := game.players ++
              [{ player_id := pid, name := nm,
                 symbol := Player.SYMBOLS.getD game.players.length "",
                 is_active := true }]
            state := if ((game.players ++
                [({ player_id := pid, name := nm,
                    symbol := Player.SYMBOLS.getD game.players.length "",
                    is_active := true } : Player)]).length : Int) = game.num_players then
                GameState.PLAYING
              else game.state })) := by
  refine ⟨?_, ?_, ?_, ?_⟩
  · intro hg
    unfold GameManager.join_game
    rw [hg]
  · intro hg hnw
    unfold GameManager.join_game
    rw [hg]
    dsimp only
    rw [if_pos hnw]
  · intro hg hw hnm hcap hmem
    exact join_game_success gm gid p game hg hw hnm hcap hmem
  · intro hg hw hnm hcap _ hmem
    unfold Server.handle_join_game
    rw [hg]
    dsimp only
    have := join_game_success gm gid
      { player_id := pid, name := nm,
        symbol := Player.SYMBOLS.getD game.players.length "", is_active := true }
      game hg hw hnm hcap hmem
    exact ⟨this.1, this.2.1⟩

def demoA1 : Game := (demoM1.get_game "A").getD junkGame

/-- C5 counterexample scenario: a three-player game played by `a`, `b`,
`c`; `a` quits mid-`PLAYING`, finishing the game with two active
survivors. -/
def demoN1 : GameManager :=
  match GameManager.empty.create_game "B" 3 with
  | Except.ok r => r.2
  | Except.error _ => GameManager.empty

def demoN2 : GameManager := (Server.handle_join_game demoN1 "a" "A" "B").2

def demoN3 : GameManager := (Server.handle_join_game demoN2 "b" "Bb" "B").2

def demoN4 : GameManager := (Server.handle_join_game demoN3 "c" "C" "B").2

def demoN5 : GameManager := Server.handle_quit_game demoN4 "a"

def demoB4 : Game := (demoN4.get_game "B").getD junkGame

theorem join_game_spec_amended_witness :
    ((demoM1.join_game "A" demoWA).1 = (true, none) ∧
      (demoM1.join_game "A" demoWA).2.get_game "A" = some
        { demoA1 with
          players := demoA1.players ++ [demoWA]
          state := if ((demoA1.players ++ [demoWA]).length : Int) = demoA1.num_players then
              GameState.PLAYING
            else demoA1.state } ∧
      lookupA (demoM1.join_game "A" demoWA).2.player_to_game demoWA.player_id = some "A") ∧
    (demoN4.join_game "B" demoWA = ((false, some "Game already started"), demoN4)) :=
  ⟨(join_game_spec_amended demoM1 "A" demoWA demoA1 "x" "X").2.2.1 (by decide) (by decide)
      (by decide) (by decide) (by decide),
   (join_game_spec_amended demoN4 "B" demoWA demoB4 "x" "X").2.1 (by decide) (by decide)⟩

/-- C5 counterexample: after `a`'s departure finishes the three-player
game (two active survivors remain), the survivors `b` and `c` are still
mapped in `player_to_game` — their entries were not released, contrary to
the claim.  (They are only released lazily, or overwritten, on their next
join.) -/
theorem stale_mapping_cex :
    ((demoN5.get_game "B").map (fun g => g.state)) = some GameState.FINISHED ∧
    lookupA demoN5.player_to_game "b" = some "B" ∧
    lookupA demoN5.player_to_game "c" = some "B" := by
  decide

/-- C5 as amended: when a game finishes through `GameManager.make_move`
(win or draw) every roster member's mapping is released immediately; after
a departure-triggered finish, surviving members' stale mappings may
persist, but they never block: `create_game` succeeds without consulting
the mapping at all, and a subsequent `join_game` by a player whose mapping
points to a `FINISHED` game releases the stale entry and proceeds (the
final mapping is the new game on success, or gone on a roster-level
rejection). -/
theorem finished_mapping_release_amended (gm : GameManager) (pid : String)
    (row col : Int) (game2 : Game) (q : Player) (gid : String) (n : Int) (p : Player)
    (old_gid : String) (og game : Game) :
    ((gm.make_move pid row col).2.1 = some game2 → game2.state = GameState.FINISHED →
      q ∈ game2.players →
      lookupA ((gm.make_move pid row col).2.2).player_to_game q.player_id = none) ∧
    (2 ≤ n → n ≤ 10 → (gm.create_game gid n).isOk = true) ∧
    (gm.get_game gid = some game → game.state = GameState.WAITING →
      lookupA gm.player_to_game p.player_id = some old_gid →
      gm.get_game old_gid = some og → og.state = GameState.FINISHED →
      lookupA ((gm.join_game gid p).2).player_to_game p.player_id =
        (if ((gm.join_game gid p).1).1 = true then some gid else none)) := by
  refine ⟨?_, ?_, ?_⟩
  · intro hsome hfin hq
    unfold GameManager.make_move at hsome ⊢
    cases hpg : gm.get_player_game pid with
    | none =>
      rw [hpg] at hsome
      simp at hsome
    | some game0 =>
      rw [hpg] at hsome
      dsimp only at hsome ⊢
      cases hfind : game0.players.find? (fun pl => pl.player_id = pid) with
      | none =>
        rw [hfind] at hsome
        simp at hsome
      | some player =>
        rw [hfind] at hsome
        dsimp only at hsome ⊢
        obtain rfl := Option.some.inj hsome
        rw [if_pos hfin]
        exact foldl_erase_lookup_mem _ q _ hq
  · intro h2 h10
    have hn : ¬(n < 2 ∨ 10 < n) := by omega
    unfold GameManager.create_game Game.init Board.init
    rw [if_neg hn]
    dsimp only
    rfl
  · intro hg hw hmap hold hfin
    unfold GameManager.join_game
    rw [hg]
    dsimp only
    rw [if_neg (not_not_intro hw), hmap]
    dsimp only
    rw [hold]
    dsimp only
    rw [if_pos hfin]
    dsimp only
    cases hadd : game.add_player p with
    | none =>
      dsimp only
      rw [if_neg (by simp)]
      exact lookupA_eraseA_self _ _
    | some gameJ =>
      dsimp only
      rw [if_pos rfl]
      exact lookupA_insertA_self _ _ _

/-- Managers used to instantiate the C5 witness: `demoMW` holds the
two-player game one move away from a win; `demoMX` holds a joinable
`WAITING` game `J` and a `FINISHED` game `F` with `s` stale-mapped to it. -/
def demoMW : GameManager :=
  { games := [("g", demoG6)], player_to_game := [("wa", "g"), ("wb", "g")] }

def demoPS : Player := { player_id := "s", name := "S", symbol := "X", is_active := true }

def demoMX : GameManager :=
  { games := [("J", demoG0), ("F", demoGFin)], player_to_game := [("s", "F")] }

theorem finished_mapping_release_amended_witness :
    lookupA ((demoMW.make_move "wa" 0 2).2.2).player_to_game demoWB.player_id = none ∧
    (demoN5.create_game "NEW" 2).isOk = true ∧
    lookupA ((demoMX.join_game "J" demoPS).2).player_to_game demoPS.player_id =
      (if ((demoMX.join_game "J" demoPS).1).1 = true then some "J" else none) :=
  ⟨(finished_mapping_release_amended demoMW "wa" 0 2 demoGFin demoWB "x" 0 dfltPlayer "x"
      junkGame junkGame).1 (by decide) (by decide) (by decide),
   (finished_mapping_release_amended demoN5 "x" 0 0 junkGame dfltPlayer "NEW" 2 dfltPlayer
      "x" junkGame junkGame).2.1 (by decide) (by decide),
   (finished_mapping_release_amended demoMX "x" 0 0 junkGame dfltPlayer "J" 0 demoPS "F"
      demoGFin demoG0).2.2 (by decide) (by decide) (by decide) (by decide) (by decide)⟩
